import Mathlib

/-!
Verification of the retrieval–reasoning orchestration core of the
Mikovits NLP portfolio RAG assistant, together with the presentation-layer
control flow of `src/Mikovits_LPP_Rag/app.py`.

The repository ships only the presentation layer (`app.py`); the backend
modules it imports (`backend.agent.RAGAgent`, `backend.database.RAGDatabase`,
`config`) are not part of the sources.  The orchestration core (vector store
contract, retrieval tool, evidence pool, orchestrator loop, answer composer)
is therefore modelled from the specification, as recorded on each definition.
The `app.py` control flow (database-handle caching, connection gate,
chat-history error handling, source rendering) is embedded from the source.
-/

/-- Modelled from the spec: one retrieved passage (§3 EvidenceRecord), as the
missing `backend.agent` would build it on each VectorStore hit.  Similarity is
a score in `[0,1]`; it is embedded as a rational number. -/
structure EvidenceRecord where
  passage_id : String
  text : String
  similarity : ℚ
  source_query : String
  retrieval_order : ℕ
deriving DecidableEq, Repr

/-- Modelled from the spec: the error raised when the vector store backing the
missing `backend.database` cannot be reached (§7 StoreUnavailable); it carries
the underlying message so that propagation "unchanged" is observable. -/
structure StoreUnavailable where
  msg : String
deriving DecidableEq, Repr

/-- Modelled from the spec: one retrieval decision of the orchestrator
(§3 ToolCall). -/
structure ToolCall where
  query_text : String
  iteration_index : ℕ
deriving DecidableEq, Repr

/-- Modelled from the spec: the terminal output of one `ask` run
(§3 AgentResult). -/
structure AgentResult where
  answer : String
  sources : List EvidenceRecord
deriving DecidableEq, Repr

/-- Modelled from the spec: the configuration value object read once per
question (§3 Configuration). -/
structure Configuration where
  top_k : ℕ
  max_iter : ℕ
  model_name : String
  api_key : String

/-- Modelled from the spec: the ranking order of §3 — descending similarity,
ties broken by ascending `retrieval_order`.  `rankRel a b` means `a` may come
before `b`. -/
def rankRel (a b : EvidenceRecord) : Prop :=
  b.similarity < a.similarity ∨
    (a.similarity = b.similarity ∧ a.retrieval_order ≤ b.retrieval_order)

instance : DecidableRel rankRel := fun a b => by
  unfold rankRel; infer_instance

instance : IsTotal EvidenceRecord rankRel := by
  constructor
  intro a b
  rcases lt_trichotomy a.similarity b.similarity with h | h | h
  · exact Or.inr (Or.inl h)
  · rcases Nat.le_total a.retrieval_order b.retrieval_order with h2 | h2
    · exact Or.inl (Or.inr ⟨h, h2⟩)
    · exact Or.inr (Or.inr ⟨h.symm, h2⟩)
  · exact Or.inl (Or.inl h)

instance : IsTrans EvidenceRecord rankRel := by
  constructor
  intro a b c hab hbc
  rcases hab with hba | ⟨hab, hoab⟩
  · rcases hbc with hcb | ⟨hbc, _⟩
    · exact Or.inl (lt_trans hcb hba)
    · exact Or.inl (hbc ▸ hba)
  · rcases hbc with hcb | ⟨hbc, hobc⟩
    · exact Or.inl (hab ▸ hcb)
    · exact Or.inr ⟨hab.trans hbc, le_trans hoab hobc⟩

/-- Modelled from the spec: the dedup merge of §3 — a duplicate `passage_id`
keeps the highest similarity and the earliest `retrieval_order` (the
first-seen record otherwise survives). -/
def mergeRecord (p r : EvidenceRecord) : EvidenceRecord :=
  { p with
    similarity := max p.similarity r.similarity,
    retrieval_order := min p.retrieval_order r.retrieval_order }

/-- Modelled from the spec: the EvidencePool component (§4.3), accumulating
evidence records across retrieval calls within one question. -/
structure EvidencePool where
  records : List EvidenceRecord
deriving DecidableEq, Repr

def EvidencePool.empty : EvidencePool := ⟨[]⟩

/-- Modelled from the spec: merge one record into the pool, keyed by
`passage_id` (§4.3 add, dedup rule of §3). -/
def addRecord (pool : List EvidenceRecord) (r : EvidenceRecord) :
    List EvidenceRecord :=
  if pool.any (fun p => p.passage_id == r.passage_id) then
    pool.map (fun p => if p.passage_id == r.passage_id then mergeRecord p r else p)
  else
    pool ++ [r]

/-- Modelled from the spec: `add(records)` merges new records into the pool
(§4.3). -/
def EvidencePool.add (pool : EvidencePool) (rs : List EvidenceRecord) :
    EvidencePool :=
  ⟨rs.foldl addRecord pool.records⟩

/-- Modelled from the spec: `ranked_view()` returns the current contents
sorted per the AgentResult ordering rule (§4.3). -/
def EvidencePool.ranked_view (pool : EvidencePool) : List EvidenceRecord :=
  List.insertionSort rankRel pool.records

/-- Similarities of all records of a batch that share a given passage id. -/
def simsOf (rs : List EvidenceRecord) (pid : String) : List ℚ :=
  (rs.filter (fun r => r.passage_id == pid)).map (fun r => r.similarity)

/-- Retrieval orders of all records of a batch that share a given passage id. -/
def ordsOf (rs : List EvidenceRecord) (pid : String) : List ℕ :=
  (rs.filter (fun r => r.passage_id == pid)).map (fun r => r.retrieval_order)

/-- Modelled from the spec: the polymorphic decision variant the orchestrator
receives from the language model (§9 Decision). -/
inductive Decision where
  | issueQuery (text : String)
  | stop
deriving DecidableEq, Repr

/-- Modelled from the spec: the capability the orchestrator calls for the
"decide" and "compose" steps (§4.4, §4.5), abstracted over any provider. -/
structure ModelStub where
  decide : String → List EvidenceRecord → Decision
  compose : String → List EvidenceRecord → String

/-- Modelled from the spec: the VectorStore query contract (§4.1):
`search(query_text, top_k)` yields `(passage_id, text, similarity)` hits or
fails with `StoreUnavailable`. -/
def SearchFn : Type :=
  String → ℕ → Except StoreUnavailable (List (String × String × ℚ))

/-- Modelled from the spec: the RetrievalTool adapter (§4.2): calls
`VectorStore.search` with the configured `top_k`, stamps each hit with
`source_query` and `retrieval_order`, and propagates `StoreUnavailable`
unchanged. -/
def retrieve (search : SearchFn) (top_k : ℕ) (query_text : String)
    (iteration : ℕ) : Except StoreUnavailable (List EvidenceRecord) :=
  (search query_text top_k).map
    (List.map (fun h => ⟨h.1, h.2.1, h.2.2, query_text, iteration⟩))

/-- Modelled from the spec: the orchestrator loop of §4.4, by recursion on the
remaining iteration budget `max_iter - iteration_index`.  It carries the
iteration index, the evidence pool and the trace of issued tool calls; a
store failure aborts the loop, returning the error together with the calls
issued up to and including the failing one. -/
def loopAux (model : ModelStub) (search : SearchFn) (top_k : ℕ)
    (question : String) :
    ℕ → ℕ → EvidencePool → List ToolCall →
    Except (StoreUnavailable × List ToolCall) (EvidencePool × List ToolCall)
  | 0, _, pool, trace => .ok (pool, trace)
  | remaining + 1, iter, pool, trace =>
    match model.decide question pool.records with
    | Decision.stop => .ok (pool, trace)
    | Decision.issueQuery qt =>
      match retrieve search top_k qt iter with
      | .error e => .error (e, trace ++ [⟨qt, iter⟩])
      | .ok recs =>
          loopAux model search top_k question remaining (iter + 1)
            (pool.add recs) (trace ++ [⟨qt, iter⟩])

/-- Modelled from the spec: the explicit no-evidence answer the composer must
produce when the pool is empty (§4.5, §7 EmptyEvidence). -/
def noEvidenceAnswer : String :=
  "No evidence was found in the knowledge base to answer this question."

/-- Modelled from the spec: AnswerComposer (§4.5) — composes the answer text
from the question and the final pool, and an empty pool yields the explicit
no-evidence answer. -/
def composeAnswer (model : ModelStub) (question : String)
    (pool : EvidencePool) : String :=
  if pool.records.isEmpty then noEvidenceAnswer
  else model.compose question pool.ranked_view

/-- Modelled from the spec: one full `ask` run (§4.4, §6), also exposing the
final evidence pool and the tool-call trace for verification. -/
def askFull (cfg : Configuration) (model : ModelStub) (search : SearchFn)
    (question : String) :
    Except StoreUnavailable (AgentResult × EvidencePool × List ToolCall) :=
  match loopAux model search cfg.top_k question cfg.max_iter 0
      EvidencePool.empty [] with
  | .error (e, _) => .error e
  | .ok (pool, trace) =>
      .ok ({ answer := composeAnswer model question pool,
             sources := pool.ranked_view }, pool, trace)

/-- Modelled from the spec: `ask(question) → AgentResult`, the sole entry
point the presentation layer consumes (§6). -/
def ask (cfg : Configuration) (model : ModelStub) (search : SearchFn)
    (question : String) : Except StoreUnavailable AgentResult :=
  (askFull cfg model search question).map (fun x => x.1)

/-- The tool calls issued during one `ask` run, whether it completes or
aborts with `StoreUnavailable`. -/
def askTrace (cfg : Configuration) (model : ModelStub) (search : SearchFn)
    (question : String) : List ToolCall :=
  match loopAux model search cfg.top_k question cfg.max_iter 0
      EvidencePool.empty [] with
  | .error (_, t) => t
  | .ok (_, t) => t

/-- The per-source record shape surfaced across the boundary (§6 output
shape); the display loop of `app.py` (lines 228-236) reads exactly the
`text` and `similarity` keys of each source. -/
structure SourceView where
  text : String
  similarity : ℚ
deriving DecidableEq, Repr

/-- The output shape surfaced across the boundary (§6):
answer string plus the list of source views. -/
structure Output where
  answer : String
  sources : List SourceView
deriving DecidableEq, Repr

/-- Projection of an `AgentResult` to the surfaced output shape, keeping the
order of `sources`. -/
def surface (r : AgentResult) : Output :=
  ⟨r.answer, r.sources.map (fun e => ⟨e.text, e.similarity⟩)⟩

/-- The sources display loop of `app.py` (lines 228-236): for each source it
reads the `similarity` key (line 229) and the `text` key (line 232), and
nothing else. -/
def renderSources (sources : List SourceView) : List (String × ℚ) :=
  sources.map (fun s => (s.text, s.similarity))

/-- The database handle constructed by `RAGDatabase(db_path)`.  `handle_id`
models Python object identity, so that "reused handle" and "freshly
constructed handle" are distinguishable; `app.py` only ever reads the
`db_path` attribute of the handle (line 129). -/
structure RAGDatabase where
  db_path : String
  handle_id : ℕ
deriving DecidableEq, Repr

/-- The cached-database update of `app.py` lines 128-130:
`if not st.session_state.database or st.session_state.database.db_path !=
db_path: st.session_state.database = RAGDatabase(db_path)`.
`fresh_id` is the identity a new construction would get. -/
def updateDatabase (cached : Option RAGDatabase) (db_path : String)
    (fresh_id : ℕ) : RAGDatabase :=
  match cached with
  | none => ⟨db_path, fresh_id⟩
  | some db => if db.db_path ≠ db_path then ⟨db_path, fresh_id⟩ else db

/-- The agent constructed per question by `app.py` lines 197-200. -/
structure RAGAgent where
  db : RAGDatabase
  model_name : String
  max_iter : ℕ
  api_key : String
deriving DecidableEq, Repr

/-- The per-question session step of `app.py`: update the cached database
handle (lines 128-130), then construct a fresh `RAGAgent` referencing it
(lines 197-200). -/
def sessionStep (cached : Option RAGDatabase) (db_path model_choice : String)
    (max_iter : ℕ) (api_key : String) (fresh_id : ℕ) :
    RAGDatabase × RAGAgent :=
  let db := updateDatabase cached db_path fresh_id
  (db, ⟨db, model_choice, max_iter, api_key⟩)

/-- Outcome of the connection gate of `app.py` lines 133-139: either the
script halts at `st.stop()`, or execution proceeds (recording whether the
liveness probe succeeded). -/
inductive GateOutcome where
  | halted
  | proceeded (connected : Bool)
deriving DecidableEq, Repr

/-- The connection gate of `app.py` lines 133-139: when
`test_connection()` is false an error is displayed, and `st.stop()` is
reached only when `os.path.exists(db_path)` is also false; otherwise
execution falls through towards agent construction. -/
def connectionGate (test_connection_ok : Bool) (path_exists : Bool) :
    GateOutcome :=
  if !test_connection_ok then
    if !path_exists then GateOutcome.halted else GateOutcome.proceeded false
  else GateOutcome.proceeded true

/-- One chat-history entry of `st.session_state.messages`; error and answer
entries carry a sources list (`app.py` lines 241-245 and 250-254), user
entries are appended without one (line 186, modelled as `[]`). -/
structure ChatMessage where
  role : String
  content : String
  sources : List SourceView
deriving DecidableEq, Repr

/-- The error marker `app.py` prefixes to the outer handler message
(line 248). -/
def errorMarker : String := "❌ Error: "

/-- The message of the `NameError` raised at `app.py` line 223: when the
inner handler (lines 215-217) has swallowed the exception from
`agent.ask`, the local `response` was never assigned, so
`st.markdown(response)` raises `NameError: name \x27response\x27 is not
defined`, which the outer handler then stringifies. -/
def nameErrorResponse : String := "name \x27response\x27 is not defined"

/-- The chat-input block of `app.py` lines 183-254 for one submitted prompt:
append the user message (line 186); construct the agent (lines 197-200,
failures caught by the outer handler at line 247); call `agent.ask` inside
the inner `try` (lines 205-217) — on success the answer message with its
sources is appended (lines 241-245), while on failure the inner handler only
displays the error, the subsequent `st.markdown(response)` raises a
`NameError` that reaches the outer handler, and an error message with empty
sources is appended (lines 250-254). -/
def processPrompt (messages : List ChatMessage) (prompt : String)
    (construct : Except String RAGAgent)
    (askApp : RAGAgent → String → Except String Output) :
    List ChatMessage :=
  let messages := messages ++ [⟨"User", prompt, []⟩]
  match construct with
  | .error e => messages ++ [⟨"assistant", errorMarker ++ e, []⟩]
  | .ok agent =>
    match askApp agent prompt with
    | .ok out => messages ++ [⟨"assistant", out.answer, out.sources⟩]
    | .error _ =>
        messages ++ [⟨"assistant", errorMarker ++ nameErrorResponse, []⟩]

/-! ### Helper lemmas on the orchestrator loop -/

/-- Trace of issued tool calls of a loop outcome, completed or aborted. -/
def loopTrace
    (res : Except (StoreUnavailable × List ToolCall)
      (EvidencePool × List ToolCall)) : List ToolCall :=
  match res with
  | .error (_, t) => t
  | .ok (_, t) => t

theorem askTrace_eq (cfg : Configuration) (model : ModelStub)
    (search : SearchFn) (question : String) :
    askTrace cfg model search question =
      loopTrace (loopAux model search cfg.top_k question cfg.max_iter 0
        EvidencePool.empty []) := by
  unfold askTrace loopTrace
  cases loopAux model search cfg.top_k question cfg.max_iter 0
      EvidencePool.empty [] with
  | error p => cases p; rfl
  | ok p => cases p; rfl

theorem loopAux_trace_inv (model : ModelStub) (search : SearchFn)
    (top_k : ℕ) (question : String) :
    ∀ (remaining iter : ℕ) (pool : EvidencePool) (trace : List ToolCall),
      trace.map ToolCall.iteration_index = List.range iter →
      trace.length = iter →
      (loopTrace (loopAux model search top_k question remaining iter pool
          trace)).map ToolCall.iteration_index =
        List.range (loopTrace (loopAux model search top_k question remaining
          iter pool trace)).length ∧
      (loopTrace (loopAux model search top_k question remaining iter pool
          trace)).length ≤ iter + remaining := by
  intro remaining
  induction remaining with
  | zero =>
    intro iter pool trace h1 h2
    simp only [loopAux, loopTrace]
    exact ⟨by rw [h1, h2], by omega⟩
  | succ r ih =>
    intro iter pool trace h1 h2
    cases hd : model.decide question pool.records with
    | stop =>
      simp only [loopAux, hd, loopTrace]
      exact ⟨by rw [h1, h2], by omega⟩
    | issueQuery qt =>
      cases hr : retrieve search top_k qt iter with
      | error e =>
        simp only [loopAux, hd, hr, loopTrace]
        constructor
        · rw [List.map_append, h1, List.length_append, h2]
          simp [List.range_succ]
        · simp only [List.length_append, h2, List.length_singleton]
          omega
      | ok recs =>
        have hinv1 : (trace ++ [(⟨qt, iter⟩ : ToolCall)]).map
            ToolCall.iteration_index = List.range (iter + 1) := by
          rw [List.map_append, h1]
          simp [List.range_succ]
        have hinv2 : (trace ++ [(⟨qt, iter⟩ : ToolCall)]).length = iter + 1 := by
          simp [h2]
        have := ih (iter + 1) (pool.add recs) (trace ++ [⟨qt, iter⟩])
          hinv1 hinv2
        simp only [loopAux, hd, hr]
        exact ⟨this.1, by omega⟩

theorem loopAux_empty_search (model : ModelStub) (search : SearchFn)
    (top_k : ℕ) (question : String)
    (hs : ∀ u k, search u k = .ok ([] : List (String × String × ℚ))) :
    ∀ (remaining iter : ℕ) (trace : List ToolCall), ∃ t,
      loopAux model search top_k question remaining iter ⟨[]⟩ trace =
        .ok (⟨[]⟩, t) := by
  intro remaining
  induction remaining with
  | zero => intro iter trace; exact ⟨trace, rfl⟩
  | succ r ih =>
    intro iter trace
    cases hd : model.decide question ([] : List EvidenceRecord) with
    | stop => exact ⟨trace, by simp only [loopAux, hd]⟩
    | issueQuery qt =>
      obtain ⟨t, ht⟩ := ih (iter + 1) (trace ++ [⟨qt, iter⟩])
      refine ⟨t, ?_⟩
      have hr : retrieve search top_k qt iter = .ok [] := by
        simp [retrieve, hs, Except.map]
      have hadd : (⟨[]⟩ : EvidencePool).add [] = ⟨[]⟩ := rfl
      simp only [loopAux, hd, hr, hadd]
      exact ht

/-! ### Concrete fixtures used by witnesses -/

/-- A model stub that always requests more retrieval with query `q0`. -/
def modelAlways : ModelStub :=
  ⟨fun _ _ => Decision.issueQuery "q0", fun _ _ => "composed"⟩

/-- A model stub that retrieves once, then stops; composes `answer A`. -/
def modelA : ModelStub :=
  ⟨fun _ pool => if pool.isEmpty then Decision.issueQuery "q0"
                 else Decision.stop,
   fun _ _ => "answer A"⟩

/-- Same decision policy as `modelA`, but a different composed answer. -/
def modelB : ModelStub :=
  ⟨fun _ pool => if pool.isEmpty then Decision.issueQuery "q0"
                 else Decision.stop,
   fun _ _ => "answer B"⟩

/-- A store stub returning one fixed passage for every query. -/
def searchConst : SearchFn := fun _ _ => .ok [("p1", "passage text", 9/10)]

/-- A store stub returning zero hits for every query. -/
def searchEmpty : SearchFn := fun _ _ => .ok []

/-- A store stub that is unavailable on every call. -/
def searchDown : SearchFn := fun _ _ => .error ⟨"db missing"⟩

/-- A concrete configuration: `top_k = 5`, `max_iter = 2`. -/
def cfgW : Configuration := ⟨5, 2, "gpt-4o-mini", "sk-key"⟩

/-- A concrete agent value for presentation-layer fixtures. -/
def agentW : RAGAgent := ⟨⟨"nba.db", 0⟩, "gpt-4o-mini", 2, "sk-key"⟩

/-! ### Claim theorems: orchestrator loop -/

/-- C1: for every question processed by one `ask` invocation with configured
`max_iter ≥ 1`, the number of retrieval tool calls issued is at most
`max_iter`, for every sequence of model decisions (including a model that
always requests more retrieval) and every store behaviour, on completed and
aborted runs alike; and the `iteration_index` stamps of the issued calls are
monotonically increasing starting at 0 (they are exactly `0, 1, 2, …`). -/
theorem toolCalls_bounded_and_monotone (cfg : Configuration)
    (model : ModelStub) (search : SearchFn) (question : String)
    (hm : 1 ≤ cfg.max_iter) :
    (askTrace cfg model search question).length ≤ cfg.max_iter ∧
    (askTrace cfg model search question).map ToolCall.iteration_index =
      List.range (askTrace cfg model search question).length := by
  have h := loopAux_trace_inv model search cfg.top_k question cfg.max_iter 0
    EvidencePool.empty [] (by simp) (by simp)
  rw [askTrace_eq]
  exact ⟨by simpa using h.2, h.1⟩

/-- Witness for C1 at a concrete configuration, with a model stub that
always requests more retrieval. -/
theorem toolCalls_bounded_and_monotone_witness :
    (askTrace cfgW modelAlways searchConst "who won").length ≤
      cfgW.max_iter ∧
    (askTrace cfgW modelAlways searchConst "who won").map
        ToolCall.iteration_index =
      List.range (askTrace cfgW modelAlways searchConst "who won").length :=
  toolCalls_bounded_and_monotone cfgW modelAlways searchConst "who won"
    (by decide)

/-- C3: if the store is unavailable (every `search` call fails with the same
`StoreUnavailable` error `e`) and the model issues a first query, then `ask`
propagates exactly `e` to the caller and produces no `AgentResult` — the
`Except.error` outcome carries no answer text and no partial sources, and the
error value is the very error the store raised, unchanged, with no
retry. -/
theorem ask_storeUnavailable_propagates (cfg : Configuration)
    (model : ModelStub) (question qt : String) (search : SearchFn)
    (e : StoreUnavailable) (hm : 1 ≤ cfg.max_iter)
    (hd : model.decide question [] = Decision.issueQuery qt)
    (hs : ∀ u k, search u k = .error e) :
    ask cfg model search question = .error e := by
  obtain ⟨n, hn⟩ : ∃ n, cfg.max_iter = n + 1 := ⟨cfg.max_iter - 1, by omega⟩
  have hr : retrieve search cfg.top_k qt 0 = .error e := by
    simp [retrieve, hs, Except.map]
  unfold ask askFull
  rw [hn]
  simp [loopAux, EvidencePool.empty, hd, hr, Except.map]

/-- Witness for C3: a store that is down on the first (and every) call. -/
theorem ask_storeUnavailable_propagates_witness :
    ask cfgW modelAlways searchDown "who won" = .error ⟨"db missing"⟩ :=
  ask_storeUnavailable_propagates cfgW modelAlways "who won" "q0" searchDown
    ⟨"db missing"⟩ (by decide) rfl (fun _ _ => rfl)

/-- C4: if every `search` call returns an empty sequence, `ask` does not
fail: it returns an `AgentResult` whose answer is the explicit no-evidence
answer and whose sources list is empty, and the run issues at most
`max_iter` tool calls. -/
theorem ask_empty_store_no_evidence (cfg : Configuration)
    (model : ModelStub) (search : SearchFn) (question : String)
    (hs : ∀ u k, search u k = .ok ([] : List (String × String × ℚ))) :
    ask cfg model search question = .ok ⟨noEvidenceAnswer, []⟩ ∧
    (askTrace cfg model search question).length ≤ cfg.max_iter := by
  obtain ⟨t, ht⟩ := loopAux_empty_search model search cfg.top_k question hs
    cfg.max_iter 0 []
  constructor
  · unfold ask askFull
    have hempty : EvidencePool.empty = ⟨[]⟩ := rfl
    rw [hempty, ht]
    simp [composeAnswer, EvidencePool.ranked_view, Except.map]
  · have h := loopAux_trace_inv model search cfg.top_k question cfg.max_iter
      0 EvidencePool.empty [] (by simp) (by simp)
    rw [askTrace_eq]
    simpa using h.2

/-- Witness for C4: a store with an empty corpus behind a concrete
configuration. -/
theorem ask_empty_store_no_evidence_witness :
    ask cfgW modelAlways searchEmpty "who won" =
      .ok ⟨noEvidenceAnswer, []⟩ ∧
    (askTrace cfgW modelAlways searchEmpty "who won").length ≤
      cfgW.max_iter :=
  ask_empty_store_no_evidence cfgW modelAlways searchEmpty "who won"
    (fun _ _ => rfl)

theorem loopAux_decide_only (m₁ m₂ : ModelStub)
    (h : m₁.decide = m₂.decide) (search : SearchFn) (top_k : ℕ)
    (question : String) :
    ∀ (remaining iter : ℕ) (pool : EvidencePool) (trace : List ToolCall),
      loopAux m₁ search top_k question remaining iter pool trace =
      loopAux m₂ search top_k question remaining iter pool trace := by
  intro remaining
  induction remaining with
  | zero => intro iter pool trace; rfl
  | succ r ih =>
    intro iter pool trace
    simp only [loopAux, h]
    cases hd : m₂.decide question pool.records with
    | stop => simp only [hd]
    | issueQuery qt =>
      simp only [hd]
      cases hr : retrieve search top_k qt iter with
      | error e => simp only [hr]
      | ok recs =>
        simp only [hr]
        exact ih (iter + 1) (pool.add recs) (trace ++ [⟨qt, iter⟩])

/-- The evidence-relevant part of an `askFull` outcome: everything except
the composed answer text (sources, final pool, tool-call trace). -/
def evidencePart
    (res : Except StoreUnavailable
      (AgentResult × EvidencePool × List ToolCall)) :
    Except StoreUnavailable
      (List EvidenceRecord × EvidencePool × List ToolCall) :=
  res.map (fun x => (x.1.sources, x.2))

/-- C6: for a fixed deterministic store stub and a fixed deterministic
decision policy, `ask` yields identical sources ordering and identical
evidence content — two stubs that share the decision function but may
compose different answer text produce the same sources, the same final
pool and the same tool-call trace (in particular, invoking `ask` twice
with the very same stubs yields identical results, the embedding being a
pure function). -/
theorem ask_evidence_decide_deterministic (cfg : Configuration)
    (m₁ m₂ : ModelStub) (search : SearchFn) (question : String)
    (h : m₁.decide = m₂.decide) :
    evidencePart (askFull cfg m₁ search question) =
      evidencePart (askFull cfg m₂ search question) := by
  unfold askFull
  rw [loopAux_decide_only m₁ m₂ h search cfg.top_k question cfg.max_iter 0
    EvidencePool.empty []]
  cases loopAux m₂ search cfg.top_k question cfg.max_iter 0
      EvidencePool.empty [] with
  | error p => rfl
  | ok p => simp [evidencePart, Except.map]

/-- Witness for C6: two stubs with the same decision policy but different
composed answers (`modelA` and `modelB`) give the same evidence part. -/
theorem ask_evidence_decide_deterministic_witness :
    evidencePart (askFull cfgW modelA searchConst "who won") =
      evidencePart (askFull cfgW modelB searchConst "who won") :=
  ask_evidence_decide_deterministic cfgW modelA modelB searchConst
    "who won" rfl

theorem askFull_ok_sources (cfg : Configuration) (model : ModelStub)
    (search : SearchFn) (question : String) (r : AgentResult)
    (pool : EvidencePool) (trace : List ToolCall)
    (h : askFull cfg model search question = .ok (r, pool, trace)) :
    r.sources = pool.ranked_view := by
  unfold askFull at h
  cases hl : loopAux model search cfg.top_k question cfg.max_iter 0
      EvidencePool.empty [] with
  | error p =>
    obtain ⟨e, t⟩ := p
    rw [hl] at h
    simp at h
  | ok p =>
    obtain ⟨pool', trace'⟩ := p
    rw [hl] at h
    simp only [Except.ok.injEq, Prod.mk.injEq] at h
    obtain ⟨h1, h2, _⟩ := h
    rw [← h1, ← h2]

/-- C5: for every completed `ask` invocation, every `EvidenceRecord` in the
returned `sources` is present in the final evidence pool (the composer never
emits a source not in the pool), and `sources` is ordered by descending
similarity with ties broken by ascending `retrieval_order`. -/
theorem ask_sources_subset_pool_and_sorted (cfg : Configuration)
    (model : ModelStub) (search : SearchFn) (question : String)
    (r : AgentResult) (pool : EvidencePool) (trace : List ToolCall)
    (h : askFull cfg model search question = .ok (r, pool, trace)) :
    (∀ e ∈ r.sources, e ∈ pool.records) ∧ List.Pairwise rankRel r.sources := by
  have hs := askFull_ok_sources cfg model search question r pool trace h
  rw [hs]
  unfold EvidencePool.ranked_view
  constructor
  · intro e he
    simpa using he
  · exact List.sorted_insertionSort rankRel pool.records

/-- The evidence record retrieved in the concrete witness run. -/
def recW : EvidenceRecord := ⟨"p1", "passage text", 9/10, "q0", 0⟩

/-- Witness for C5 at a concrete completed run: one query, one passage. -/
theorem ask_sources_subset_pool_and_sorted_witness :
    (∀ e ∈ (AgentResult.mk "answer A" [recW]).sources,
        e ∈ (EvidencePool.mk [recW]).records) ∧
    List.Pairwise rankRel (AgentResult.mk "answer A" [recW]).sources :=
  ask_sources_subset_pool_and_sorted cfgW modelA searchConst "who won"
    (AgentResult.mk "answer A" [recW]) (EvidencePool.mk [recW])
    [⟨"q0", 0⟩] (by rfl)

/-- C7: for every successful `ask` invocation, the value surfaced across the
external boundary is a record with a string `answer` field and a `sources`
field holding one record per returned source, each with exactly a `text`
string field and a `similarity` score field, in the `AgentResult` order
(descending similarity); the display loop of `app.py` (lines 228-236) reads
exactly those two keys. -/
theorem surfaced_output_shape (cfg : Configuration) (model : ModelStub)
    (search : SearchFn) (question : String) (r : AgentResult)
    (pool : EvidencePool) (trace : List ToolCall)
    (h : askFull cfg model search question = .ok (r, pool, trace)) :
    (surface r).answer = r.answer ∧
    (surface r).sources =
      r.sources.map (fun e => SourceView.mk e.text e.similarity) ∧
    List.Pairwise (fun a b => b.similarity ≤ a.similarity)
      (surface r).sources ∧
    renderSources (surface r).sources =
      r.sources.map (fun e => (e.text, e.similarity)) := by
  refine ⟨rfl, rfl, ?_, ?_⟩
  · have hs := askFull_ok_sources cfg model search question r pool trace h
    have hp : List.Pairwise rankRel r.sources := by
      rw [hs]
      exact List.sorted_insertionSort rankRel pool.records
    refine List.Pairwise.map (fun e => SourceView.mk e.text e.similarity)
      ?_ hp
    intro a b hab
    rcases hab with h1 | ⟨h2, _⟩
    · exact le_of_lt h1
    · exact le_of_eq h2.symm
  · simp [renderSources, surface, List.map_map]

/-- Witness for C7 at the same concrete completed run. -/
theorem surfaced_output_shape_witness :
    (surface (AgentResult.mk "answer A" [recW])).answer =
      (AgentResult.mk "answer A" [recW]).answer ∧
    (surface (AgentResult.mk "answer A" [recW])).sources =
      (AgentResult.mk "answer A" [recW]).sources.map
        (fun e => SourceView.mk e.text e.similarity) ∧
    List.Pairwise (fun a b => b.similarity ≤ a.similarity)
      (surface (AgentResult.mk "answer A" [recW])).sources ∧
    renderSources (surface (AgentResult.mk "answer A" [recW])).sources =
      (AgentResult.mk "answer A" [recW]).sources.map
        (fun e => (e.text, e.similarity)) :=
  surfaced_output_shape cfgW modelA searchConst "who won"
    (AgentResult.mk "answer A" [recW]) (EvidencePool.mk [recW])
    [⟨"q0", 0⟩] (by rfl)

/-! ### Claim theorems: presentation layer (`app.py`) -/

/-- C8: within a session, the cached database handle is left unchanged by a
question whenever the configured `db_path` equals the `db_path` of the
cached handle; only when it differs is a new `RAGDatabase` constructed; and
in either case the fresh per-question `RAGAgent` references exactly that
shared handle. -/
theorem database_handle_cached_reuse (db : RAGDatabase)
    (db_path model_choice api_key : String) (max_iter fresh_id : ℕ) :
    (db.db_path = db_path →
      sessionStep (some db) db_path model_choice max_iter api_key fresh_id =
        (db, ⟨db, model_choice, max_iter, api_key⟩)) ∧
    (db.db_path ≠ db_path →
      sessionStep (some db) db_path model_choice max_iter api_key fresh_id =
        (⟨db_path, fresh_id⟩,
         ⟨⟨db_path, fresh_id⟩, model_choice, max_iter, api_key⟩)) := by
  constructor
  · intro h
    simp [sessionStep, updateDatabase, h]
  · intro h
    simp [sessionStep, updateDatabase, h]

/-- Witness for C8: an unchanged path reuses the cached handle with its
original identity, and the agent references it. -/
theorem database_handle_cached_reuse_witness :
    sessionStep (some ⟨"nba.db", 0⟩) "nba.db" "gpt-4o-mini" 2 "sk-key" 7 =
      (⟨"nba.db", 0⟩, ⟨⟨"nba.db", 0⟩, "gpt-4o-mini", 2, "sk-key"⟩) :=
  (database_handle_cached_reuse ⟨"nba.db", 0⟩ "nba.db" "gpt-4o-mini"
    "sk-key" 2 7).1 rfl

/-- C10: when `test_connection()` returns false, the script halts at
`st.stop()` exactly when the configured `db_path` does not exist on the
filesystem; if the file exists but the liveness probe fails, execution
falls through (towards agent construction, so `ask` may still be invoked
against the failing database). -/
theorem connectionGate_halt_condition (path_exists : Bool) :
    (connectionGate false path_exists = GateOutcome.halted ↔
      path_exists = false) ∧
    (path_exists = true →
      connectionGate false path_exists = GateOutcome.proceeded false) := by
  revert path_exists
  decide

/-- Witness for C10: probe fails but the file exists — execution
proceeds. -/
theorem connectionGate_halt_condition_witness :
    connectionGate false true = GateOutcome.proceeded false :=
  (connectionGate_halt_condition true).2 rfl

/-- C9, counterexample: when `agent.ask` raises with message `boom`, the
assistant message recorded in the chat history does not carry the string of
the raised error — the inner handler (`app.py` lines 215-217) swallows it and
the outer handler stringifies the consequent `NameError` instead. -/
theorem processPrompt_ask_error_loses_message :
    processPrompt [] "who won" (.ok agentW) (fun _ _ => .error "boom") =
      [⟨"User", "who won", []⟩,
       ⟨"assistant", errorMarker ++ nameErrorResponse, []⟩] ∧
    errorMarker ++ nameErrorResponse ≠ errorMarker ++ "boom" := by
  constructor
  · rfl
  · decide

/-- C9, amended: for every question whose agent construction or `ask` call
raises, exactly one assistant message is appended, with empty sources and a
content prefixed by the error marker; for construction failures the content
carries the message of the raised exception, while for `ask` failures it carries
the message of the consequent `NameError` (`name \x27response\x27 is not
defined`), the original message having been swallowed by the inner handler;
in neither case is an answer message with non-empty sources recorded. -/
theorem processPrompt_error_append (messages : List ChatMessage)
    (prompt e : String) :
    (∀ askApp, processPrompt messages prompt (.error e) askApp =
      messages ++ [⟨"User", prompt, []⟩] ++
        [⟨"assistant", errorMarker ++ e, []⟩]) ∧
    (∀ (agent : RAGAgent)
        (askApp : RAGAgent → String → Except String Output),
      askApp agent prompt = .error e →
      processPrompt messages prompt (.ok agent) askApp =
        messages ++ [⟨"User", prompt, []⟩] ++
          [⟨"assistant", errorMarker ++ nameErrorResponse, []⟩]) := by
  constructor
  · intro askApp
    simp [processPrompt]
  · intro agent askApp h
    simp [processPrompt, h]

/-- Witness for the amended C9: a failing `ask` call appends exactly the
NameError-bearing assistant message. -/
theorem processPrompt_error_append_witness :
    processPrompt [] "who won" (.ok agentW)
        (fun _ _ => .error "auth failed") =
      [⟨"User", "who won", []⟩,
       ⟨"assistant", errorMarker ++ nameErrorResponse, []⟩] :=
  (processPrompt_error_append [] "who won" "auth failed").2 agentW
    (fun _ _ => .error "auth failed") rfl

/-! ### The EvidencePool dedup/ranking invariant (C2) -/

theorem simsOf_append_of_eq (rs : List EvidenceRecord) (r : EvidenceRecord)
    (pid : String) (h : r.passage_id = pid) :
    simsOf (rs ++ [r]) pid = simsOf rs pid ++ [r.similarity] := by
  simp [simsOf, List.filter_append, h]

theorem simsOf_append_of_ne (rs : List EvidenceRecord) (r : EvidenceRecord)
    (pid : String) (h : r.passage_id ≠ pid) :
    simsOf (rs ++ [r]) pid = simsOf rs pid := by
  simp [simsOf, List.filter_append, h]

theorem ordsOf_append_of_eq (rs : List EvidenceRecord) (r : EvidenceRecord)
    (pid : String) (h : r.passage_id = pid) :
    ordsOf (rs ++ [r]) pid = ordsOf rs pid ++ [r.retrieval_order] := by
  simp [ordsOf, List.filter_append, h]

theorem ordsOf_append_of_ne (rs : List EvidenceRecord) (r : EvidenceRecord)
    (pid : String) (h : r.passage_id ≠ pid) :
    ordsOf (rs ++ [r]) pid = ordsOf rs pid := by
  simp [ordsOf, List.filter_append, h]

theorem simsOf_eq_nil (rs : List EvidenceRecord) (pid : String)
    (h : ∀ x ∈ rs, x.passage_id ≠ pid) : simsOf rs pid = [] := by
  have : rs.filter (fun r => r.passage_id == pid) = [] := by
    rw [List.filter_eq_nil_iff]
    intro x hx
    simpa using h x hx
  simp [simsOf, this]

theorem ordsOf_eq_nil (rs : List EvidenceRecord) (pid : String)
    (h : ∀ x ∈ rs, x.passage_id ≠ pid) : ordsOf rs pid = [] := by
  have : rs.filter (fun r => r.passage_id == pid) = [] := by
    rw [List.filter_eq_nil_iff]
    intro x hx
    simpa using h x hx
  simp [ordsOf, this]

/-- A pool record represents the records of the batch `rs` sharing its
passage id: its similarity is the greatest similarity among them and its
retrieval order the least retrieval order among them. -/
def RecordMaxMin (rs : List EvidenceRecord) (p : EvidenceRecord) : Prop :=
  p.similarity ∈ simsOf rs p.passage_id ∧
  (∀ s ∈ simsOf rs p.passage_id, s ≤ p.similarity) ∧
  p.retrieval_order ∈ ordsOf rs p.passage_id ∧
  (∀ o ∈ ordsOf rs p.passage_id, p.retrieval_order ≤ o)

/-- The dedup invariant tying a pool to the sequence `rs` of records added
so far: every pool record aggregates the group of its passage id, the
passage id of every added record is represented, and passage ids are
pairwise distinct. -/
def PoolInv (rs pool : List EvidenceRecord) : Prop :=
  (∀ p ∈ pool, RecordMaxMin rs p) ∧
  (∀ r ∈ rs, ∃ p ∈ pool, p.passage_id = r.passage_id) ∧
  (pool.map EvidenceRecord.passage_id).Nodup

theorem poolInv_nil : PoolInv [] [] :=
  ⟨fun p hp => absurd hp (List.not_mem_nil p),
   fun r hr => absurd hr (List.not_mem_nil r), by simp⟩

theorem poolInv_addRecord {rs pool : List EvidenceRecord}
    (h : PoolInv rs pool) (r : EvidenceRecord) :
    PoolInv (rs ++ [r]) (addRecord pool r) := by
  obtain ⟨hmm, hcov, hnd⟩ := h
  unfold addRecord
  cases hmatch : pool.any (fun p => p.passage_id == r.passage_id) with
  | true =>
    rw [if_pos rfl]
    set g := fun p : EvidenceRecord =>
      if p.passage_id == r.passage_id then mergeRecord p r else p with hg
    have gid : ∀ p : EvidenceRecord, (g p).passage_id = p.passage_id := by
      intro p
      by_cases hp : p.passage_id = r.passage_id
      · simp [hg, hp, mergeRecord]
      · simp [hg, hp]
    refine ⟨?_, ?_, ?_⟩
    · intro p' hp'
      obtain ⟨p, hp, rfl⟩ := List.mem_map.mp hp'
      by_cases hpid : p.passage_id = r.passage_id
      · have hgp : g p = mergeRecord p r := by simp [hg, hpid]
        rw [hgp]
        have hrp : r.passage_id = p.passage_id := hpid.symm
        obtain ⟨hm1, hm2, hm3, hm4⟩ := hmm p hp
        have hmpid : (mergeRecord p r).passage_id = p.passage_id := rfl
        unfold RecordMaxMin
        rw [hmpid, simsOf_append_of_eq rs r p.passage_id hrp,
          ordsOf_append_of_eq rs r p.passage_id hrp]
        have hsim : (mergeRecord p r).similarity =
            max p.similarity r.similarity := rfl
        have hord : (mergeRecord p r).retrieval_order =
            min p.retrieval_order r.retrieval_order := rfl
        rw [hsim, hord]
        refine ⟨?_, ?_, ?_, ?_⟩
        · rcases max_choice p.similarity r.similarity with hmx | hmx
          · rw [hmx]; exact List.mem_append_left _ hm1
          · rw [hmx]; exact List.mem_append_right _ (List.mem_singleton.mpr rfl)
        · intro s hs
          rcases List.mem_append.mp hs with hs | hs
          · exact le_trans (hm2 s hs) (le_max_left _ _)
          · rw [List.mem_singleton.mp hs]; exact le_max_right _ _
        · rcases min_choice p.retrieval_order r.retrieval_order with hmn | hmn
          · rw [hmn]; exact List.mem_append_left _ hm3
          · rw [hmn]; exact List.mem_append_right _ (List.mem_singleton.mpr rfl)
        · intro o ho
          rcases List.mem_append.mp ho with ho | ho
          · exact le_trans (min_le_left _ _) (hm4 o ho)
          · rw [List.mem_singleton.mp ho]; exact min_le_right _ _
      · have hgp : g p = p := by simp [hg, hpid]
        rw [hgp]
        have hrp : r.passage_id ≠ p.passage_id := fun hh => hpid hh.symm
        unfold RecordMaxMin
        rw [simsOf_append_of_ne rs r p.passage_id hrp,
          ordsOf_append_of_ne rs r p.passage_id hrp]
        exact hmm p hp
    · intro x hx
      rcases List.mem_append.mp hx with hx | hx
      · obtain ⟨p, hp, hpid⟩ := hcov x hx
        exact ⟨g p, List.mem_map_of_mem g hp, by rw [gid p]; exact hpid⟩
      · rw [List.mem_singleton.mp hx]
        obtain ⟨p0, hp0, hf⟩ := List.any_eq_true.mp hmatch
        have hpid : p0.passage_id = r.passage_id := by simpa using hf
        exact ⟨g p0, List.mem_map_of_mem g hp0, by rw [gid p0]; exact hpid⟩
    · have : (pool.map g).map EvidenceRecord.passage_id =
          pool.map EvidenceRecord.passage_id := by
        rw [List.map_map]
        exact List.map_congr_left (fun p _ => gid p)
      rw [this]
      exact hnd
  | false =>
    simp only [Bool.false_eq_true, if_false]
    have hnone : ∀ p ∈ pool, p.passage_id ≠ r.passage_id := by
      intro p hp
      have := List.any_eq_false.mp hmatch p hp
      simpa using this
    have hrs : ∀ x ∈ rs, x.passage_id ≠ r.passage_id := by
      intro x hx hcontra
      obtain ⟨p, hp, hpid⟩ := hcov x hx
      exact hnone p hp (hpid.trans hcontra)
    refine ⟨?_, ?_, ?_⟩
    · intro p' hp'
      rcases List.mem_append.mp hp' with hp' | hp'
      · have hrp : r.passage_id ≠ p'.passage_id :=
          fun hh => hnone p' hp' hh.symm
        unfold RecordMaxMin
        rw [simsOf_append_of_ne rs r p'.passage_id hrp,
          ordsOf_append_of_ne rs r p'.passage_id hrp]
        exact hmm p' hp'
      · rw [List.mem_singleton.mp hp']
        unfold RecordMaxMin
        rw [simsOf_append_of_eq rs r r.passage_id rfl,
          ordsOf_append_of_eq rs r r.passage_id rfl,
          simsOf_eq_nil rs r.passage_id hrs, ordsOf_eq_nil rs r.passage_id hrs]
        refine ⟨List.mem_singleton.mpr rfl, ?_, List.mem_singleton.mpr rfl, ?_⟩
        · intro s hs; rw [List.mem_singleton.mp hs]
        · intro o ho; rw [List.mem_singleton.mp ho]
    · intro x hx
      rcases List.mem_append.mp hx with hx | hx
      · obtain ⟨p, hp, hpid⟩ := hcov x hx
        exact ⟨p, List.mem_append_left _ hp, hpid⟩
      · rw [List.mem_singleton.mp hx]
        exact ⟨r, List.mem_append_right _ (List.mem_singleton.mpr rfl), rfl⟩
    · rw [List.map_append]
      refine List.Nodup.append hnd (List.nodup_singleton _) ?_
      intro a ha hb
      obtain ⟨p, hp, hpid⟩ := List.mem_map.mp ha
      have : a = r.passage_id := by simpa using hb
      exact hnone p hp (hpid.trans this)

theorem poolInv_foldl (rs2 : List EvidenceRecord) :
    ∀ (acc pool : List EvidenceRecord), PoolInv acc pool →
      PoolInv (acc ++ rs2) (rs2.foldl addRecord pool) := by
  induction rs2 with
  | nil => intro acc pool h; simpa using h
  | cons r rs2 ih =>
    intro acc pool h
    have h3 := ih (acc ++ [r]) (addRecord pool r) (poolInv_addRecord h r)
    simpa [List.append_assoc] using h3

theorem foldl_add_records (batches : List (List EvidenceRecord)) :
    ∀ pool : EvidencePool,
      (batches.foldl EvidencePool.add pool).records =
        batches.flatten.foldl addRecord pool.records := by
  induction batches with
  | nil => intro pool; rfl
  | cons b bs ih =>
    intro pool
    simp only [List.foldl_cons, List.flatten_cons]
    rw [ih (pool.add b), List.foldl_append]
    rfl

/-- C2: for every sequence of record batches added to an `EvidencePool`,
`ranked_view()` returns the pool contents (a permutation of the records of
the pool) sorted by descending similarity with ties broken by ascending
`retrieval_order`; records sharing a `passage_id` collapse to a single
record whose similarity is the highest and whose `retrieval_order` is the
earliest among the records of that id, every added id being represented; and in
particular two records with the same `passage_id` and similarities 0.80 and
0.95 collapse to one record with similarity 0.95 and the original
`retrieval_order`. -/
theorem ranked_view_spec (batches : List (List EvidenceRecord)) :
    List.Pairwise rankRel
      ((batches.foldl EvidencePool.add EvidencePool.empty).ranked_view) ∧
    (batches.foldl EvidencePool.add EvidencePool.empty).ranked_view.Perm
      (batches.foldl EvidencePool.add EvidencePool.empty).records ∧
    (((batches.foldl EvidencePool.add EvidencePool.empty).ranked_view).map
        EvidenceRecord.passage_id).Nodup ∧
    (∀ p ∈ (batches.foldl EvidencePool.add EvidencePool.empty).ranked_view,
       p.similarity ∈ simsOf batches.flatten p.passage_id ∧
       (∀ s ∈ simsOf batches.flatten p.passage_id, s ≤ p.similarity) ∧
       p.retrieval_order ∈ ordsOf batches.flatten p.passage_id ∧
       (∀ o ∈ ordsOf batches.flatten p.passage_id,
         p.retrieval_order ≤ o)) ∧
    (∀ r ∈ batches.flatten,
       ∃ p ∈ (batches.foldl EvidencePool.add EvidencePool.empty).ranked_view,
         p.passage_id = r.passage_id) ∧
    ((EvidencePool.empty.add [⟨"p1", "t", 4/5, "q1", 0⟩]).add
        [⟨"p1", "t", 19/20, "q2", 1⟩]).ranked_view =
      [⟨"p1", "t", 19/20, "q1", 0⟩] := by
  have hrec := foldl_add_records batches EvidencePool.empty
  have hinv : PoolInv batches.flatten
      (batches.foldl EvidencePool.add EvidencePool.empty).records := by
    rw [hrec]
    have := poolInv_foldl batches.flatten [] [] poolInv_nil
    simpa using this
  obtain ⟨hmm, hcov, hnd⟩ := hinv
  have hperm :
      ((batches.foldl EvidencePool.add EvidencePool.empty).ranked_view).Perm
        (batches.foldl EvidencePool.add EvidencePool.empty).records :=
    List.perm_insertionSort rankRel _
  refine ⟨?_, hperm, ?_, ?_, ?_, ?_⟩
  · exact List.sorted_insertionSort rankRel _
  · exact ((hperm.map EvidenceRecord.passage_id).nodup_iff).mpr hnd
  · intro p hp
    exact hmm p (hperm.mem_iff.mp hp)
  · intro r hr
    obtain ⟨p, hp, hpid⟩ := hcov r hr
    exact ⟨p, hperm.mem_iff.mpr hp, hpid⟩
  · have h45 : ((4 : ℚ)/5) ≤ 19/20 := by norm_num
    simp [EvidencePool.add, EvidencePool.empty, addRecord, mergeRecord,
      EvidencePool.ranked_view, max_eq_right h45, Nat.zero_min]

/-- Witness for C2 at a concrete one-batch addition. -/
theorem ranked_view_spec_witness :
    List.Pairwise rankRel
      (([[recW]].foldl EvidencePool.add EvidencePool.empty).ranked_view) :=
  (ranked_view_spec [[recW]]).1
